import Mathlib

/-!
# Verification of `lambda_function.py` (aws-lambda-wsl-local)

Shallow embedding of the single-file AWS Lambda program that fetches a
weather forecast over HTTP with bounded retries, decodes the XML body to a
nested mapping, JSON-encodes a payload, resolves a collision-avoiding
date-scoped S3 key by regex-matching existing keys, and uploads the payload.

Modelling conventions:
* Python strings are `List Char` (`Str` below); byte payloads produced by
  `json.dumps(...).encode('UTF-8')` are modelled by the same character list,
  since `json.dumps` with its default `ensure_ascii=True` emits pure ASCII,
  on which UTF-8 is the identity embedding.
* The decoded `xmltodict` structure is the inductive `PyVal` (strings,
  dicts with insertion order, lists); subscripting raises `PyErr.keyError`
  or `PyErr.typeError` exactly where Python would.
* External effects are oracles passed as parameters: each HTTP attempt's
  outcome is `oracle i : AttemptResult`; the S3 service is `S3Client`
  (successive listing pages for the prefix query, and the outcome the
  `put_object` call would have); "today" (`datetime.now().strftime`) is a
  string parameter.
-/

set_option maxRecDepth 4000

/-- Python strings, modelled as lists of unicode scalar values. -/
abbrev Str := List Char

/-- Embed a Lean string literal as a `Str`. -/
def str (s : String) : Str := s.data

/-- Python exceptions that the modelled code can raise. -/
inductive PyErr where
  /-- `KeyError(key)` from a failed dict subscript. -/
  | keyError (key : Str)
  /-- `TypeError` from subscripting / iterating a value of the wrong shape. -/
  | typeError (msg : Str)
  /-- `xml.parsers.expat.ExpatError` escaping from `xmltodict.parse`. -/
  | expatError
  /-- `UnboundLocalError(name)`: a local variable referenced before assignment. -/
  | unboundLocal (name : Str)
  deriving DecidableEq

/-- Decoded `xmltodict` values: strings, insertion-ordered dicts, lists. -/
inductive PyVal where
  | str (s : Str)
  | dict (entries : List (Str × PyVal))
  | list (elems : List PyVal)

/-- Python `d[k]` on the modelled values: assoc lookup on dicts
(`KeyError` when absent), `TypeError` on non-dict values. -/
def PyVal.getItem : PyVal → Str → Except PyErr PyVal
  | .dict entries, k =>
    match entries.lookup k with
    | some v => .ok v
    | none => .error (.keyError k)
  | .str _, k => .error (.typeError k)
  | .list _, k => .error (.typeError k)

/-- Python `d[k] = v` on a dict: updates the value in place when the key is
present (keeping its position), appends otherwise. Identity on non-dicts
(never applied to them in the modelled code). -/
def PyVal.setItem : PyVal → Str → PyVal → PyVal
  | .dict entries, k, v =>
    if entries.any (fun p => p.1 == k) then
      .dict (entries.map (fun p => if p.1 == k then (k, v) else p))
    else
      .dict (entries ++ [(k, v)])
  | other, _, _ => other

/-- Python `x == s` for a string literal `s`: true only when `x` is an equal
string (comparison with a non-string is `False`, not an error). -/
def PyVal.eqStr : PyVal → Str → Bool
  | .str t, s => t == s
  | _, _ => false

section Encoder

/-- Lowercase hexadecimal digit, as emitted inside `\uXXXX` escapes. -/
def toHexDigit (n : Nat) : Char :=
  if n < 10 then Char.ofNat (48 + n) else Char.ofNat (87 + n)

/-- Four-digit lowercase hex rendering of `n < 0x10000`. -/
def hex4 (n : Nat) : Str :=
  [toHexDigit (n / 4096 % 16), toHexDigit (n / 256 % 16),
   toHexDigit (n / 16 % 16), toHexDigit (n % 16)]

/-- How CPython's `json.dumps` (default `ensure_ascii=True`) renders one
character inside a string literal: `\"` `\\` and the five short escapes;
`\uXXXX` (with a surrogate pair above `0xFFFF`) for every character outside
printable ASCII `0x20`–`0x7e`; the character itself otherwise. -/
def escapeChar (c : Char) : Str :=
  if c = '"' then ['\\', '"']
  else if c = '\\' then ['\\', '\\']
  else if c = '\x08' then ['\\', 'b']
  else if c = '\x0c' then ['\\', 'f']
  else if c = '\n' then ['\\', 'n']
  else if c = '\x0d' then ['\\', 'r']
  else if c = '\t' then ['\\', 't']
  else if c.toNat < 32 ∨ 126 < c.toNat then
    if c.toNat < 65536 then
      '\\' :: 'u' :: hex4 c.toNat
    else
      '\\' :: 'u' :: hex4 (55296 + (c.toNat - 65536) / 1024) ++
      '\\' :: 'u' :: hex4 (56320 + (c.toNat - 65536) % 1024)
  else [c]

/-- `json.dumps` escaping of a whole string body. -/
def escapeString (s : Str) : Str := s.flatMap escapeChar

mutual

/-- `json.dumps` (default separators `", "` and `": "`, `ensure_ascii=True`,
no key sorting) on the modelled values. -/
def json_dumps : PyVal → Str
  | .str s => '"' :: escapeString s ++ ['"']
  | .dict entries => '\x7b' :: dumpEntries entries ++ ['\x7d']
  | .list elems => '[' :: dumpElems elems ++ [']']

/-- Dict entries rendered `"key": value`, joined by `", "`. -/
def dumpEntries : List (Str × PyVal) → Str
  | [] => []
  | [(k, v)] => '"' :: escapeString k ++ '"' :: ':' :: ' ' :: json_dumps v
  | (k, v) :: e :: rest =>
    '"' :: escapeString k ++ '"' :: ':' :: ' ' :: json_dumps v ++
    ',' :: ' ' :: dumpEntries (e :: rest)

/-- List elements joined by `", "`. -/
def dumpElems : List PyVal → Str
  | [] => []
  | [v] => json_dumps v
  | v :: w :: rest => json_dumps v ++ ',' :: ' ' :: dumpElems (w :: rest)

end

/-- `process_weather_data` (source lines 107–112): serialize the mapping
with `json.dumps` and take the UTF-8 bytes; the output is pure ASCII, so the
byte payload is modelled by the character list itself. -/
def process_weather_data (weather_data : PyVal) : Str :=
  json_dumps weather_data

end Encoder

section Decoder

/-!
Modelled from the spec: the "Encoding round-trip" property decodes "the
Encoder's output byte payload back to a mapping" with a standard JSON
parse. JSON decoding is not part of the repository, so it is modelled here,
following the JSON string grammar restricted to the canonical flat objects
`\x7b"k": "v", ...\x7d` the encoder emits for a WeatherSnapshot.
-/

/-- Value of one hexadecimal digit (both cases accepted, as in JSON). -/
def hexDigitVal (c : Char) : Option Nat :=
  if 48 ≤ c.toNat ∧ c.toNat ≤ 57 then some (c.toNat - 48)
  else if 97 ≤ c.toNat ∧ c.toNat ≤ 102 then some (c.toNat - 87)
  else if 65 ≤ c.toNat ∧ c.toNat ≤ 70 then some (c.toNat - 55)
  else none

/-- Value of a four-digit hexadecimal escape body. -/
def hexVal (h1 h2 h3 h4 : Char) : Option Nat := do
  let a ← hexDigitVal h1
  let b ← hexDigitVal h2
  let c ← hexDigitVal h3
  let d ← hexDigitVal h4
  some (4096 * a + 256 * b + 16 * c + d)

/-- Scan a JSON string body up to its unescaped closing quote: returns the
raw (still escaped) content and the input remaining after the quote. A
backslash always consumes the following character. -/
def scanString : Str → Option (Str × Str)
  | [] => none
  | '"' :: rest => some ([], rest)
  | '\\' :: c :: rest =>
    (fun p => ('\\' :: c :: p.1, p.2)) <$> scanString rest
  | c :: rest => (fun p => (c :: p.1, p.2)) <$> scanString rest

mutual

/-- Decode the escape sequences of a scanned JSON string body: the short
escapes, and `\uXXXX` (a high surrogate must be followed by a `\uXXXX` low
surrogate, the pair decoding to one supplementary character; lone
surrogates are rejected). Split into four mutually recursive phases: plain
characters, the character after a backslash, the four hex digits after
`\u`, and the low-surrogate escape required after a high surrogate. -/
def unescape : Str → Option Str
  | [] => some []
  | c :: rest =>
    if c = '\\' then unescapeEsc rest else (c :: ·) <$> unescape rest

/-- Decode one escape sequence given the input just after its backslash. -/
def unescapeEsc : Str → Option Str
  | [] => none
  | e :: rest =>
    if e = 'u' then unescapeHex rest
    else if e = '"' then ('"' :: ·) <$> unescape rest
    else if e = '\\' then ('\\' :: ·) <$> unescape rest
    else if e = 'b' then ('\x08' :: ·) <$> unescape rest
    else if e = 'f' then ('\x0c' :: ·) <$> unescape rest
    else if e = 'n' then ('\n' :: ·) <$> unescape rest
    else if e = 'r' then ('\x0d' :: ·) <$> unescape rest
    else if e = 't' then ('\t' :: ·) <$> unescape rest
    else none

/-- Decode the four hex digits after `\u` and, for a high surrogate, the
mandatory paired low surrogate. -/
def unescapeHex : Str → Option Str
  | a :: b :: e :: d :: rest =>
    (match hexVal a b e d with
     | none => none
     | some n =>
       if n < 55296 ∨ (57344 ≤ n ∧ n < 65536) then
         (Char.ofNat n :: ·) <$> unescape rest
       else if n < 56320 then unescapeLow n rest
       else none)
  | _ => none

/-- Decode the `\uXXXX` low surrogate paired with high surrogate `n`. -/
def unescapeLow (n : Nat) : Str → Option Str
  | '\\' :: 'u' :: a :: b :: e :: d :: rest =>
    (match hexVal a b e d with
     | none => none
     | some m =>
       if 56320 ≤ m ∧ m < 57344 then
         (Char.ofNat (65536 + (n - 55296) * 1024 + (m - 56320)) :: ·) <$> unescape rest
       else none)
  | _ => none

end

/-- Expect an opening quote, returning the input after it. -/
def expectQuote : Str → Option Str
  | '"' :: r => some r
  | _ => none

/-- Expect the canonical `": "` member separator followed by the value's
opening quote, returning the input after them. -/
def expectColonSpaceQuote : Str → Option Str
  | ':' :: ' ' :: '"' :: r => some r
  | _ => none

/-- Parse one `"key": "value"` member of a flat JSON object, returning the
decoded pair and the remaining input. -/
def parseEntry (s : Str) : Option ((Str × Str) × Str) := do
  let r ← expectQuote s
  let p1 ← scanString r
  let k ← unescape p1.1
  let r2 ← expectColonSpaceQuote p1.2
  let p2 ← scanString r2
  let v ← unescape p2.1
  some ((k, v), p2.2)

/-- Parse the members of a nonempty flat JSON object after its opening
brace, up to the closing brace ending the input; `fuel` bounds the member
count. -/
def parseEntries : Nat → Str → Option (List (Str × Str))
  | 0, _ => none
  | fuel + 1, s => do
    let (kv, r) ← parseEntry s
    match r with
    | ['\x7d'] => some [kv]
    | ',' :: ' ' :: r2 => (kv :: ·) <$> parseEntries fuel r2
    | _ => none

/-- JSON-decode a flat object of string fields to string values. -/
def json_loads_obj (s : Str) : Option (List (Str × Str)) :=
  match s with
  | '\x7b' :: '\x7d' :: [] => some []
  | '\x7b' :: r => parseEntries r.length r
  | _ => none

end Decoder

section Fetcher

/-- Outcome of one iteration of the retry loop in `get_weather_data`
(source lines 56–75): the four caught `requests` exceptions, a 2xx response
whose body `xmltodict.parse` rejects (the `ExpatError` is not caught), or a
2xx response parsing to `dict_data`. -/
inductive AttemptResult where
  /-- `raise_for_status` raised `requests.exceptions.HTTPError`. -/
  | httpError
  /-- `requests.exceptions.ConnectionError`. -/
  | connectionError
  /-- `requests.exceptions.Timeout`. -/
  | timeoutError
  /-- any other `requests.exceptions.RequestException`. -/
  | requestError
  /-- 2xx status but `xmltodict.parse` raises. -/
  | badBody
  /-- 2xx status, body parsed to `dict_data`. -/
  | ok (dict_data : PyVal)

/-- The attempt was one of the four caught request-layer failures. -/
def AttemptResult.isFail : AttemptResult → Bool
  | .httpError | .connectionError | .timeoutError | .requestError => true
  | .badBody | .ok _ => false

/-- One diagnostic line printed by an `except` block of the retry loop. -/
inductive LogLine where
  /-- `"Http Error: ..."` -/
  | httpError
  /-- `"Error Connecting: ..."` -/
  | connectionError
  /-- `"Timeout Error: ..."` -/
  | timeoutError
  /-- `"Something Else: ..."` -/
  | somethingElse
  deriving DecidableEq

/-- The log line a failed attempt produces (`none` on non-failures). -/
def classifyFail : AttemptResult → Option LogLine
  | .httpError => some .httpError
  | .connectionError => some .connectionError
  | .timeoutError => some .timeoutError
  | .requestError => some .somethingElse
  | .badBody | .ok _ => none

/-- Observables of one `get_weather_data` run: HTTP GET calls made,
diagnostic lines printed, the returned value or escaping exception, and
whether the post-loop category-extraction block was entered. -/
structure FetchResult where
  calls : Nat
  logs : List LogLine
  outcome : Except PyErr PyVal
  extractionExecuted : Bool

/-- The retry loop `for _ in range(max_retries)` of `get_weather_data`:
on a parsed 2xx response the function returns `dict_data` from inside the
loop; a parse failure escapes uncaught; each caught request failure logs a
classified line (and sleeps) before the next iteration. When the loop
exhausts its iterations, execution reaches `if dict_data:` with the local
`dict_data` never assigned, raising `UnboundLocalError` — so the
category-extraction block below it is never entered on any path. -/
def fetchLoop (oracle : Nat → AttemptResult) : Nat → Nat → List LogLine → FetchResult
  | 0, calls, logs =>
    ⟨calls, logs, .error (.unboundLocal (str "dict_data")), false⟩
  | n + 1, calls, logs =>
    match oracle calls with
    | .ok d => ⟨calls + 1, logs, .ok d, false⟩
    | .badBody => ⟨calls + 1, logs, .error .expatError, false⟩
    | .httpError => fetchLoop oracle n (calls + 1) (logs ++ [.httpError])
    | .connectionError => fetchLoop oracle n (calls + 1) (logs ++ [.connectionError])
    | .timeoutError => fetchLoop oracle n (calls + 1) (logs ++ [.timeoutError])
    | .requestError => fetchLoop oracle n (calls + 1) (logs ++ [.somethingElse])

/-- `get_weather_data` (source lines 40–105), with the outcome of attempt
`i` given by `oracle i`. The `url`, `params` and `interval` arguments only
shape the individual HTTP calls, which the oracle abstracts. -/
def get_weather_data (oracle : Nat → AttemptResult) (max_retries : Nat) : FetchResult :=
  fetchLoop oracle max_retries 0 []

end Fetcher

section Extractor

/-- The seven category codes recognized by the extraction block, paired
with the snapshot field each one sets. -/
def recognizedField (c : Str) : Option Str :=
  if c = str "PTY" then some (str "pty")
  else if c = str "REH" then some (str "reh")
  else if c = str "SKY" then some (str "sky")
  else if c = str "TMN" then some (str "tmn")
  else if c = str "TMX" then some (str "tmx")
  else if c = str "VEC" then some (str "vec")
  else if c = str "WSD" then some (str "wsd")
  else none

/-- One step of the extraction loop body (source lines 81–103): seven
independent `if item['category'] == '...'` checks, each setting its field
to `item['fcstValue']` when it matches. -/
def extractStep (weather_data : PyVal) (item : PyVal) : Except PyErr PyVal := do
  let cat ← item.getItem (str "category")
  let weather_data ← if cat.eqStr (str "PTY") then
      (fun v => weather_data.setItem (str "pty") v) <$> item.getItem (str "fcstValue")
    else pure weather_data
  let weather_data ← if cat.eqStr (str "REH") then
      (fun v => weather_data.setItem (str "reh") v) <$> item.getItem (str "fcstValue")
    else pure weather_data
  let weather_data ← if cat.eqStr (str "SKY") then
      (fun v => weather_data.setItem (str "sky") v) <$> item.getItem (str "fcstValue")
    else pure weather_data
  let weather_data ← if cat.eqStr (str "TMN") then
      (fun v => weather_data.setItem (str "tmn") v) <$> item.getItem (str "fcstValue")
    else pure weather_data
  let weather_data ← if cat.eqStr (str "TMX") then
      (fun v => weather_data.setItem (str "tmx") v) <$> item.getItem (str "fcstValue")
    else pure weather_data
  let weather_data ← if cat.eqStr (str "VEC") then
      (fun v => weather_data.setItem (str "vec") v) <$> item.getItem (str "fcstValue")
    else pure weather_data
  let weather_data ← if cat.eqStr (str "WSD") then
      (fun v => weather_data.setItem (str "wsd") v) <$> item.getItem (str "fcstValue")
    else pure weather_data
  pure weather_data

/-- The category-extraction block of `get_weather_data` (source lines
77–105), as the standalone projection it implements: walk
`dict_data['response']['body']['items']['item']` building `weather_data`
from `\x7b\x7d`. Subscript failures propagate as the raw `KeyError` /
`TypeError` Python raises. (Inside `get_weather_data` this block is dead
code: every success path returns inside the loop and the exhausted path
raises before reaching it.) -/
def extract_weather (dict_data : PyVal) : Except PyErr PyVal := do
  let response ← dict_data.getItem (str "response")
  let body ← response.getItem (str "body")
  let items ← body.getItem (str "items")
  let item_list ← items.getItem (str "item")
  match item_list with
  | .list elems => elems.foldlM extractStep (PyVal.dict [])
  | _ => .error (.typeError (str "item"))

/-- A forecast item `\x7b'category': c, 'fcstValue': v\x7d` as decoded by
`xmltodict`. -/
def mkItem (c v : Str) : PyVal :=
  .dict [(str "category", .str c), (str "fcstValue", .str v)]

/-- A decoded response wrapping an item list at
`response.body.items.item`. -/
def mkResponse (items : List PyVal) : PyVal :=
  .dict [(str "response", .dict [(str "body", .dict [(str "items",
    .dict [(str "item", .list items)])])])]

end Extractor

section KeyResolver

/-- First codepoints of the 66 runs of ten consecutive Unicode decimal
digits (category `Nd`, Unicode 14/15 data as shipped with CPython; each run
carries the decimal values 0–9 in order). Python's `re` pattern `\d`
matches exactly these characters, and `int(...)` combines their decimal
values. -/
def ndRunStarts : List Nat :=
  [48, 1632, 1776, 1984, 2406, 2534, 2662, 2790, 2918, 3046, 3174, 3302,
   3430, 3558, 3664, 3792, 3872, 4160, 4240, 6112, 6160, 6470, 6608, 6784,
   6800, 6992, 7088, 7232, 7248, 42528, 43216, 43264, 43472, 43504, 43600,
   44016, 65296, 66720, 68912, 69734, 69872, 69942, 70096, 70384, 70736,
   70864, 71248, 71360, 71472, 71904, 72016, 72784, 73040, 73120, 92768,
   92864, 93008, 120782, 120792, 120802, 120812, 120822, 123200, 123632,
   125264, 130032]

/-- Decimal value of a Unicode decimal digit; `none` when `c` is not one. -/
def pyDigitVal (c : Char) : Option Nat :=
  ndRunStarts.findSome? (fun s =>
    if s ≤ c.toNat ∧ c.toNat < s + 10 then some (c.toNat - s) else none)

/-- What Python's `\d` matches: any Unicode decimal digit. -/
def isPyDigit (c : Char) : Bool :=
  (pyDigitVal c).isSome

/-- Value of a digit string, as Python `int(...)` computes it on a `\d+`
match: base ten over the digits' decimal values. -/
def int_of_digits (ds : Str) : Nat :=
  ds.foldl (fun a c => 10 * a + (pyDigitVal c).getD 0) 0

/-- Match a literal pattern fragment against the front of the input,
returning the remaining input (regex-wise, `re.escape(file_name)` makes the
base a literal). -/
def consumeLit : Str → Str → Option Str
  | [], k => some k
  | _ :: _, [] => none
  | c :: cs, d :: ds => if c = d then consumeLit cs ds else none

/-- Semantics of `re.compile(rf"^\x7bre.escape(base)\x7d(?:_(\d+))?$").match(key)`:
`none` when the key does not match; `some none` when it matches with the
optional group absent; `some (some ds)` when the group matched the digit
string `ds`. `\d` matches any Unicode decimal digit, and the `$` anchor
matches at the end of the key and also just before one newline that ends
the key. So after the literal base the key either ends at once (possibly
with that one final newline) — a match without the group — or continues
with `_` and a nonempty digit string captured greedily by `\d+`, again
followed by nothing or one final newline. -/
def re_match (base key : Str) : Option (Option Str) :=
  match consumeLit base key with
  | none => none
  | some [] => some none
  | some (c :: rest) =>
    if c = '_' then
      if rest.takeWhile isPyDigit ≠ [] ∧
          (rest.dropWhile isPyDigit = [] ∨ rest.dropWhile isPyDigit = ['\n']) then
        some (some (rest.takeWhile isPyDigit))
      else none
    else if c = '\n' ∧ rest = [] then some none
    else none

/-- The S3 service as seen through the prefix-listing query and the upload:
`pages` are the successive result pages `list_objects_v2` would serve for
the dated-base prefix (each page a list of object keys, the `Contents`
entries' `Key` fields); `putResult` is the outcome `put_object` would
have (`Except.error` models a raised exception, carrying its message). -/
structure S3Client where
  pages : List (List Str)
  putResult : Except Str Unit

/-- One `s3.list_objects_v2(Bucket=..., Prefix=...)` call with no
`ContinuationToken`: it returns only the first result page (an absent
`Contents` key — the empty listing — is `pages = []`, and
`.get('Contents', [])` yields `[]`). The truncation flag of the response is
never consulted by the modelled code. -/
def list_objects_v2 (s3 : S3Client) : List Str :=
  s3.pages.headD []

/-- `get_existing_filename` (source lines 140–158): append today's date to
the base name, collect `int(match.group(1))` over the listed keys whose
match has a truthy group 1, and return `f"\x7bfile_name\x7d_\x7bmax+1\x7d"`
(`max(..., default=0)`). -/
def get_existing_filename (s3 : S3Client) (file_name : Str) (today_str : Str) : Str :=
  let file_name := file_name ++ '_' :: today_str
  let all_objects := list_objects_v2 s3
  let existing_numbers := all_objects.filterMap (fun key =>
    match re_match file_name key with
    | some (some ds) => some (int_of_digits ds)
    | _ => none)
  let max_number := existing_numbers.foldl Nat.max 0
  let next_number := max_number + 1
  file_name ++ '_' :: (Nat.repr next_number).data

/-- Spec-side characterization of the suffix a listed key contributes,
under the Python semantics of the pattern: a key contributes `n` exactly
when, after the dated base, it reads `_`, then a nonempty string of Unicode
decimal digits of value `n`, optionally followed by one final newline
(tolerated by the `$` anchor); the bare dated base (again with an optional
final newline) matches with no contribution; every other key is excluded. -/
def spec_matchSuffix (datedBase key : Str) : Option Nat :=
  if key.take datedBase.length = datedBase then
    match key.drop datedBase.length with
    | c :: rest =>
      if c = '_' then
        if rest ≠ [] ∧ rest.all isPyDigit then some (int_of_digits rest)
        else if rest.getLast? = some '\n' ∧ rest.dropLast ≠ [] ∧
            rest.dropLast.all isPyDigit then
          some (int_of_digits rest.dropLast)
        else none
      else none
    | [] => none
  else none

/-- Spec-side `max(S, default 0)` over the suffixes of a key listing. -/
def spec_maxSuffix (datedBase : Str) (keys : List Str) : Nat :=
  (keys.filterMap (spec_matchSuffix datedBase)).foldl Nat.max 0

/-- The frozen claim's stricter reading of the pattern: any extra trailing
character (a final newline included) excludes the key, and the digits are
ASCII `0-9`. The reference code's matching is laxer: compare
`spec_matchSuffix`. -/
def strict_matchSuffix (datedBase key : Str) : Option Nat :=
  if key.take datedBase.length = datedBase then
    match key.drop datedBase.length with
    | c :: ds =>
      if c = '_' ∧ ds ≠ [] ∧ ds.all (·.isDigit) then some (int_of_digits ds)
      else none
    | [] => none
  else none

/-- `max(S, default 0)` under the claim's stricter reading. -/
def strict_maxSuffix (datedBase : Str) (keys : List Str) : Nat :=
  (keys.filterMap (strict_matchSuffix datedBase)).foldl Nat.max 0

end KeyResolver

section Orchestrator

/-- Config entries drawn from the environment (`AWS_CONFIG`): bucket name,
key prefix, and the fixed base file key. -/
structure AwsConfig where
  bucket_name : Str
  pfx : Str
  file_key : Str

/-- One `put_object` request: bucket, resolved key, and byte payload. -/
structure PutCall where
  bucket : Str
  key : Str
  body : Str

/-- Observables of one `upload_file_to_s3` run: returned boolean, the
`put_object` requests issued, and the error messages printed. -/
structure UploadResult where
  ok : Bool
  putCalls : List PutCall
  logs : List Str

/-- `upload_file_to_s3` (source lines 114–138): resolve the collision-free
key for `prefix + file_name`, then attempt the single `put_object`; a raised
exception is caught, printed and converted to `False`. -/
def upload_file_to_s3 (s3 : S3Client) (bucket pfx file_name : Str)
    (encoded_data : Str) (today_str : Str) : UploadResult :=
  let full_file_name := pfx ++ file_name
  let new_file_name := get_existing_filename s3 full_file_name today_str
  match s3.putResult with
  | .ok _ => ⟨true, [⟨bucket, new_file_name, encoded_data⟩], []⟩
  | .error e => ⟨false, [⟨bucket, new_file_name, encoded_data⟩], [e]⟩

/-- The `\x7b'statusCode': ..., 'body': json.dumps(...)\x7d` result of
`lambda_handler`. -/
structure LambdaResponse where
  statusCode : Nat
  body : Str

/-- What one `lambda_handler` invocation produces when no exception
escapes. -/
structure HandlerOutput where
  response : LambdaResponse
  putCalls : List PutCall

/-- `lambda_handler` (source lines 161–181): fetch (defaults
`max_retries=10`), encode whatever `get_weather_data` returned, upload, and
report `200 / "Upload Success"` or `400 / "Upload Fail"`. An exception
escaping the fetch aborts the invocation. -/
def lambda_handler (oracle : Nat → AttemptResult) (s3 : S3Client)
    (cfg : AwsConfig) (today_str : Str) : Except PyErr HandlerOutput :=
  match (get_weather_data oracle 10).outcome with
  | .error e => .error e
  | .ok weather_data =>
    let encoded_data := process_weather_data weather_data
    let r := upload_file_to_s3 s3 cfg.bucket_name cfg.pfx cfg.file_key
      encoded_data today_str
    if r.ok then
      .ok ⟨⟨200, json_dumps (.str (str "Upload Success"))⟩, r.putCalls⟩
    else
      .ok ⟨⟨400, json_dumps (.str (str "Upload Fail"))⟩, r.putCalls⟩

/-- The byte payloads the invocation handed to `put_object`. -/
def uploadedBodies : Except PyErr HandlerOutput → List Str
  | .ok o => o.putCalls.map (fun p => p.body)
  | .error _ => []

/-- The status code of the invocation's result, when one was returned. -/
def statusOf : Except PyErr HandlerOutput → Option Nat
  | .ok o => some o.response.statusCode
  | .error _ => none

end Orchestrator

section Lemmas

/-- `consumeLit` consumes exactly a leading copy of the literal. -/
theorem consumeLit_eq (base : Str) : ∀ k : Str,
    consumeLit base k =
      if k.take base.length = base then some (k.drop base.length) else none := by
  induction base with
  | nil => intro k; simp [consumeLit]
  | cons c cs ih =>
    intro k
    cases k with
    | nil => simp [consumeLit]
    | cons d ds =>
      simp only [consumeLit, List.length_cons, List.take_succ_cons,
        List.drop_succ_cons, List.cons.injEq]
      by_cases hcd : c = d
      · subst hcd
        rw [ih ds]
        by_cases h : ds.take cs.length = cs <;> simp [h]
      · rw [if_neg hcd, if_neg]
        rintro ⟨h1, _⟩
        exact hcd h1.symm

/-- A newline is not a Unicode decimal digit. -/
theorem isPyDigit_newline : isPyDigit '\n' = false := by decide

/-- `takeWhile` and `dropWhile` split a list made of an all-true prefix, a
false element and a tail exactly there. -/
theorem takeWhile_all_append (p : Char → Bool) :
    ∀ (l1 : Str) (a : Char) (l2 : Str), (∀ x ∈ l1, p x = true) → p a = false →
      (l1 ++ a :: l2).takeWhile p = l1 ∧ (l1 ++ a :: l2).dropWhile p = a :: l2 := by
  intro l1
  induction l1 with
  | nil =>
    intro a l2 _ hpa
    constructor <;> simp [List.takeWhile_cons, List.dropWhile_cons, hpa]
  | cons c l ih =>
    intro a l2 hall hpa
    have hc : p c = true := hall c (by simp)
    have hrec := ih a l2 (fun x hx => hall x (by simp [hx])) hpa
    constructor <;>
      simp [List.takeWhile_cons, List.dropWhile_cons, hc, hrec.1, hrec.2]

/-- The head of a nonempty `dropWhile` result fails the predicate. -/
theorem dropWhile_head_false (p : Char → Bool) :
    ∀ (l t : Str) (a : Char), l.dropWhile p = a :: t → p a = false := by
  intro l
  induction l with
  | nil => intro t a h; simp [List.dropWhile] at h
  | cons c l ih =>
    intro t a h
    rw [List.dropWhile_cons] at h
    by_cases hc : p c = true
    · rw [if_pos hc] at h
      exact ih t a h
    · rw [if_neg hc] at h
      obtain ⟨rfl, -⟩ := List.cons.inj h
      exact Bool.eq_false_iff.mpr hc

/-- The regex-pipeline suffix extraction coincides with the spec-side
characterization `spec_matchSuffix`. -/
theorem keyFilter_eq (db k : Str) :
    (match re_match db k with
     | some (some ds) => some (int_of_digits ds)
     | _ => none) = spec_matchSuffix db k := by
  unfold re_match spec_matchSuffix
  rw [consumeLit_eq]
  by_cases h : k.take db.length = db
  · simp only [if_pos h]
    cases hd : k.drop db.length with
    | nil => rfl
    | cons c rest =>
      dsimp only
      by_cases hc : c = '_'
      · subst hc
        rw [if_pos rfl, if_pos rfl]
        by_cases hdw0 : rest.dropWhile isPyDigit = []
        · have hdig : ∀ x ∈ rest, isPyDigit x = true :=
            List.dropWhile_eq_nil_iff.mp hdw0
          have htw : rest.takeWhile isPyDigit = rest :=
            List.takeWhile_eq_self_iff.mpr hdig
          by_cases hne : rest = []
          · subst hne
            simp
          · rw [if_pos ⟨by rw [htw]; exact hne, Or.inl hdw0⟩,
              if_pos ⟨hne, List.all_eq_true.mpr hdig⟩, htw]
        · have htwdig : ∀ x ∈ rest.takeWhile isPyDigit, isPyDigit x = true :=
            fun x hx => List.mem_takeWhile_imp hx
          by_cases hdwn : rest.dropWhile isPyDigit = ['\n']
          · have hsplit : rest.takeWhile isPyDigit ++ ['\n'] = rest := by
              conv_rhs =>
                rw [← List.takeWhile_append_dropWhile (p := isPyDigit) (l := rest)]
              rw [hdwn]
            by_cases htw0 : rest.takeWhile isPyDigit = []
            · have hrest : rest = ['\n'] := by
                rw [← hsplit, htw0]
                rfl
              subst hrest
              decide
            · rw [if_pos ⟨htw0, Or.inr hdwn⟩]
              have hb1 : ¬(rest ≠ [] ∧ rest.all isPyDigit = true) := by
                rintro ⟨-, hall⟩
                have := List.all_eq_true.mp hall '\n' (by
                  rw [← hsplit]
                  exact List.mem_append_right _ (by simp))
                rw [isPyDigit_newline] at this
                cases this
              rw [if_neg hb1]
              have hgl : rest.getLast? = some '\n' := by
                rw [← hsplit]
                exact List.getLast?_concat _
              have hdl : rest.dropLast = rest.takeWhile isPyDigit := by
                conv_lhs => rw [← hsplit]
                exact List.dropLast_concat
              rw [if_pos ⟨hgl, by rw [hdl]; exact htw0,
                by rw [hdl]; exact List.all_eq_true.mpr htwdig⟩, hdl]
          · rw [if_neg (by
              rintro ⟨-, h1 | h1⟩
              · exact hdw0 h1
              · exact hdwn h1)]
            have hb1 : ¬(rest ≠ [] ∧ rest.all isPyDigit = true) := by
              rintro ⟨-, hall⟩
              exact hdw0 (List.dropWhile_eq_nil_iff.mpr (List.all_eq_true.mp hall))
            rw [if_neg hb1]
            have hb2 : ¬(rest.getLast? = some '\n' ∧ rest.dropLast ≠ [] ∧
                rest.dropLast.all isPyDigit = true) := by
              rintro ⟨hgl, -, hall⟩
              have hr : rest.dropLast ++ ['\n'] = rest :=
                List.dropLast_append_getLast? _ hgl
              have hsp := takeWhile_all_append isPyDigit rest.dropLast '\n' []
                (List.all_eq_true.mp hall) isPyDigit_newline
              rw [hr] at hsp
              exact hdwn hsp.2
            rw [if_neg hb2]
      · rw [if_neg hc, if_neg hc]
        by_cases hcn : c = '\n' ∧ rest = []
        · obtain ⟨rfl, rfl⟩ := hcn
          rw [if_pos ⟨rfl, rfl⟩]
        · rw [if_neg hcn]
  · simp [h]

/-- `filterMap` preserves length when the function succeeds on every element. -/
theorem filterMap_length_all_some {α β : Type} (f : α → Option β) :
    ∀ l : List α, (∀ x ∈ l, (f x).isSome = true) → (l.filterMap f).length = l.length := by
  intro l
  induction l with
  | nil => intro _; rfl
  | cons a l ih =>
    intro h
    have ha := h a (by simp)
    obtain ⟨b, hb⟩ := Option.isSome_iff_exists.mp ha
    rw [List.filterMap_cons, hb]
    simp only [List.length_cons]
    rw [ih (fun x hx => h x (by simp [hx]))]

/-- Running the retry loop across `k` failing attempts makes `k` calls, appends their classified log lines, and continues with the remaining budget. -/
theorem fetchLoop_skipFails (oracle : Nat → AttemptResult) :
    ∀ (k n start : Nat) (logs : List LogLine), k ≤ n →
      (∀ j, j < k → (oracle (start + j)).isFail = true) →
      fetchLoop oracle n start logs =
        fetchLoop oracle (n - k) (start + k)
          (logs ++ (List.range k).filterMap (fun j => classifyFail (oracle (start + j)))) := by
  intro k
  induction k with
  | zero => intro n start logs _ _; simp
  | succ k ih =>
    intro n start logs hk hfail
    obtain ⟨m, rfl⟩ : ∃ m, n = m + 1 := ⟨n - 1, by omega⟩
    have h0 : (oracle start).isFail = true := by
      have := hfail 0 (by omega)
      simpa using this
    have finish : ∀ ℓ : LogLine, classifyFail (oracle start) = some ℓ →
        fetchLoop oracle (m + 1) start logs = fetchLoop oracle m (start + 1) (logs ++ [ℓ]) →
        fetchLoop oracle (m + 1) start logs =
          fetchLoop oracle (m + 1 - (k + 1)) (start + (k + 1))
            (logs ++ (List.range (k + 1)).filterMap (fun j => classifyFail (oracle (start + j)))) := by
      intro ℓ hcls hstep
      have hrec := ih m (start + 1) (logs ++ [ℓ]) (by omega) (fun j hj => by
        have := hfail (j + 1) (by omega)
        rwa [show start + (j + 1) = start + 1 + j by omega] at this)
      have e1 : m + 1 - (k + 1) = m - k := by omega
      have e2 : start + (k + 1) = start + 1 + k := by omega
      have e3 : logs ++ (List.range (k + 1)).filterMap (fun j => classifyFail (oracle (start + j)))
          = (logs ++ [ℓ]) ++ (List.range k).filterMap (fun j => classifyFail (oracle (start + 1 + j))) := by
        rw [List.range_succ_eq_map, List.filterMap_cons]
        rw [show start + 0 = start by omega, hcls, List.filterMap_map]
        have : (fun j => classifyFail (oracle (start + Nat.succ j)))
            = (fun j => classifyFail (oracle (start + 1 + j))) := by
          funext j
          rw [show start + Nat.succ j = start + 1 + j by omega]
        rw [Function.comp_def, this, List.append_cons]
      rw [hstep, hrec, e1, e2, e3]
    cases hor : oracle start with
    | ok d => rw [hor] at h0; simp [AttemptResult.isFail] at h0
    | badBody => rw [hor] at h0; simp [AttemptResult.isFail] at h0
    | httpError =>
      exact finish .httpError (by simp [classifyFail, hor]) (by simp [fetchLoop, hor])
    | connectionError =>
      exact finish .connectionError (by simp [classifyFail, hor]) (by simp [fetchLoop, hor])
    | timeoutError =>
      exact finish .timeoutError (by simp [classifyFail, hor]) (by simp [fetchLoop, hor])
    | requestError =>
      exact finish .somethingElse (by simp [classifyFail, hor]) (by simp [fetchLoop, hor])

/-- When every attempt fails, the fetch makes exactly `max_retries` calls, logs each failure, and ends in the `UnboundLocalError` crash path. -/
theorem get_weather_data_allFail (oracle : Nat → AttemptResult) (max_retries : Nat)
    (h : ∀ i, i < max_retries → (oracle i).isFail = true) :
    get_weather_data oracle max_retries =
      ⟨max_retries, (List.range max_retries).filterMap (fun i => classifyFail (oracle i)),
        .error (.unboundLocal (str "dict_data")), false⟩ := by
  unfold get_weather_data
  rw [fetchLoop_skipFails oracle max_retries max_retries 0 [] le_rfl
    (fun j hj => by simpa using h j hj)]
  simp only [Nat.sub_self, Nat.zero_add, List.nil_append]
  simp only [fetchLoop]

/-- A fetch whose first `k` attempts fail continues from attempt `k` with the failures logged. -/
theorem get_weather_data_skip (oracle : Nat → AttemptResult) (n k : Nat) (hk : k ≤ n)
    (hfail : ∀ i, i < k → (oracle i).isFail = true) :
    get_weather_data oracle n =
      fetchLoop oracle (n - k) k ((List.range k).filterMap (fun i => classifyFail (oracle i))) := by
  unfold get_weather_data
  rw [fetchLoop_skipFails oracle k n 0 [] hk (fun j hj => by simpa using hfail j hj)]
  simp only [Nat.zero_add, List.nil_append]

/-- On a well-shaped response the extraction is the fold of `extractStep` over the item list. -/
theorem extract_weather_mkResponse (items : List PyVal) :
    extract_weather (mkResponse items) =
      items.foldlM extractStep (PyVal.dict []) := rfl

/-- Extracting one item per recognized category yields exactly the seven snapshot fields in order. -/
theorem extract_sevenItems (v1 v2 v3 v4 v5 v6 v7 : Str) :
    ([mkItem (str "PTY") v1, mkItem (str "REH") v2,
        mkItem (str "SKY") v3, mkItem (str "TMN") v4, mkItem (str "TMX") v5,
        mkItem (str "VEC") v6, mkItem (str "WSD") v7] :
      List PyVal).foldlM extractStep (PyVal.dict []) =
      .ok (.dict [(str "pty", .str v1), (str "reh", .str v2), (str "sky", .str v3),
        (str "tmn", .str v4), (str "tmx", .str v5), (str "vec", .str v6),
        (str "wsd", .str v7)]) := rfl

/-- The extraction fold splits across list append. -/
theorem extract_foldl_append (l1 l2 : List PyVal) (b : PyVal) :
    (l1 ++ l2).foldlM extractStep b =
      l1.foldlM extractStep b >>= fun b2 => l2.foldlM extractStep b2 := by
  induction l1 generalizing b with
  | nil => simp
  | cons a l ih =>
    simp only [List.cons_append, List.foldlM_cons]
    cases ha : extractStep b a with
    | ok b2 => simp [ha, ih]
    | error e => simp [ha]

/-- An item with an unrecognized category code leaves the snapshot unchanged. -/
theorem extractStep_unrec (d : PyVal) (c v : Str)
    (e1 : (c == str "PTY") = false) (e2 : (c == str "REH") = false)
    (e3 : (c == str "SKY") = false) (e4 : (c == str "TMN") = false)
    (e5 : (c == str "TMX") = false) (e6 : (c == str "VEC") = false)
    (e7 : (c == str "WSD") = false) :
    extractStep d (mkItem c v) = .ok d := by
  have hcat : (mkItem c v).getItem (str "category") = .ok (.str c) := rfl
  unfold extractStep
  rw [hcat]
  dsimp only [Bind.bind, Monad.toBind, Except.instMonad, Except.bind, PyVal.eqStr]
  simp only [e1, e2, e3, e4, e5, e6, e7]
  rfl

/-- One item per recognized category plus one unrecognized item yields exactly the seven recognized fields. -/
theorem extract_sevenPlusUnrecognized (v1 v2 v3 v4 v5 v6 v7 v8 c : Str)
    (h : c ∉ [str "PTY", str "REH", str "SKY", str "TMN", str "TMX",
      str "VEC", str "WSD"]) :
    extract_weather (mkResponse [mkItem (str "PTY") v1, mkItem (str "REH") v2,
        mkItem (str "SKY") v3, mkItem (str "TMN") v4, mkItem (str "TMX") v5,
        mkItem (str "VEC") v6, mkItem (str "WSD") v7, mkItem c v8]) =
      .ok (.dict [(str "pty", .str v1), (str "reh", .str v2), (str "sky", .str v3),
        (str "tmn", .str v4), (str "tmx", .str v5), (str "vec", .str v6),
        (str "wsd", .str v7)]) := by
  simp only [List.mem_cons, List.not_mem_nil, or_false, not_or] at h
  obtain ⟨h1, h2, h3, h4, h5, h6, h7⟩ := h
  have e1 : (c == str "PTY") = false := beq_eq_false_iff_ne.mpr h1
  have e2 : (c == str "REH") = false := beq_eq_false_iff_ne.mpr h2
  have e3 : (c == str "SKY") = false := beq_eq_false_iff_ne.mpr h3
  have e4 : (c == str "TMN") = false := beq_eq_false_iff_ne.mpr h4
  have e5 : (c == str "TMX") = false := beq_eq_false_iff_ne.mpr h5
  have e6 : (c == str "VEC") = false := beq_eq_false_iff_ne.mpr h6
  have e7 : (c == str "WSD") = false := beq_eq_false_iff_ne.mpr h7
  rw [extract_weather_mkResponse,
    show ([mkItem (str "PTY") v1, mkItem (str "REH") v2, mkItem (str "SKY") v3,
      mkItem (str "TMN") v4, mkItem (str "TMX") v5, mkItem (str "VEC") v6,
      mkItem (str "WSD") v7, mkItem c v8] : List PyVal)
      = [mkItem (str "PTY") v1, mkItem (str "REH") v2, mkItem (str "SKY") v3,
        mkItem (str "TMN") v4, mkItem (str "TMX") v5, mkItem (str "VEC") v6,
        mkItem (str "WSD") v7] ++ [mkItem c v8] from rfl,
    extract_foldl_append, extract_sevenItems]
  simp only [List.foldlM_cons, extractStep_unrec _ c v8 e1 e2 e3 e4 e5 e6 e7]
  rfl

/-- Appending an item with a recognized category sets that field to its value (last write wins). -/
theorem extract_lastWriteWins (items : List PyVal) (d0 : PyVal) (c v fld : Str)
    (hrec : recognizedField c = some fld)
    (hok : extract_weather (mkResponse items) = .ok d0) :
    extract_weather (mkResponse (items ++ [mkItem c v])) =
      .ok (d0.setItem fld (.str v)) := by
  rw [extract_weather_mkResponse] at hok ⊢
  rw [extract_foldl_append, hok]
  unfold recognizedField at hrec
  by_cases hc1 : c = str "PTY"
  · subst hc1; rw [if_pos rfl] at hrec; cases hrec; rfl
  rw [if_neg hc1] at hrec
  by_cases hc2 : c = str "REH"
  · subst hc2; rw [if_pos rfl] at hrec; cases hrec; rfl
  rw [if_neg hc2] at hrec
  by_cases hc3 : c = str "SKY"
  · subst hc3; rw [if_pos rfl] at hrec; cases hrec; rfl
  rw [if_neg hc3] at hrec
  by_cases hc4 : c = str "TMN"
  · subst hc4; rw [if_pos rfl] at hrec; cases hrec; rfl
  rw [if_neg hc4] at hrec
  by_cases hc5 : c = str "TMX"
  · subst hc5; rw [if_pos rfl] at hrec; cases hrec; rfl
  rw [if_neg hc5] at hrec
  by_cases hc6 : c = str "VEC"
  · subst hc6; rw [if_pos rfl] at hrec; cases hrec; rfl
  rw [if_neg hc6] at hrec
  by_cases hc7 : c = str "WSD"
  · subst hc7; rw [if_pos rfl] at hrec; cases hrec; rfl
  rw [if_neg hc7] at hrec
  cases hrec

/-- A Lean `Char` is a unicode scalar value: below the surrogate range or between it and `0x110000`. -/
theorem char_valid_bounds (c : Char) :
    c.toNat < 55296 ∨ (57344 ≤ c.toNat ∧ c.toNat < 1114112) := by
  have h := c.valid
  unfold UInt32.isValidChar Nat.isValidChar at h
  unfold Char.toNat
  omega

/-- Hex digits round-trip through rendering and parsing. -/
theorem hexDigitVal_toHexDigit (d : Nat) (h : d < 16) :
    hexDigitVal (toHexDigit d) = some d := by
  interval_cases d <;> decide

/-- Rendered hex digits are never a quote or a backslash. -/
theorem toHexDigit_ne_quote (d : Nat) (h : d < 16) :
    toHexDigit d ≠ '"' ∧ toHexDigit d ≠ '\\' := by
  interval_cases d <;> exact ⟨by decide, by decide⟩

/-- A four-digit hex rendering parses back to its value. -/
theorem hexVal_hex4 (n : Nat) (h : n < 65536) :
    hexVal (toHexDigit (n / 4096 % 16)) (toHexDigit (n / 256 % 16))
      (toHexDigit (n / 16 % 16)) (toHexDigit (n % 16)) = some n := by
  rw [hexVal]
  rw [hexDigitVal_toHexDigit _ (Nat.mod_lt _ (by omega)),
    hexDigitVal_toHexDigit _ (Nat.mod_lt _ (by omega)),
    hexDigitVal_toHexDigit _ (Nat.mod_lt _ (by omega)),
    hexDigitVal_toHexDigit _ (Nat.mod_lt _ (by omega))]
  show some _ = some n
  congr 1
  omega

/-- `scanString` copies a plain character. -/
theorem scan_raw (c : Char) (t : Str) (h1 : c ≠ '"') (h2 : c ≠ '\\') :
    scanString (c :: t) = (fun p => (c :: p.1, p.2)) <$> scanString t := by
  rw [scanString.eq_def]
  split
  · next heq => exact absurd heq (by simp)
  · next heq =>
    obtain ⟨rfl, rfl⟩ := List.cons.inj heq
    exact absurd rfl h1
  · next c2 rest heq =>
    obtain ⟨rfl, h⟩ := List.cons.inj heq
    exact absurd rfl h2
  · next c2 rest heq =>
    obtain ⟨rfl, rfl⟩ := List.cons.inj heq
    rfl

/-- `scanString` copies a `\uXXXX` escape. -/
theorem scan_u (a b e d : Char) (t : Str)
    (ha : a ≠ '"' ∧ a ≠ '\\') (hb : b ≠ '"' ∧ b ≠ '\\')
    (he : e ≠ '"' ∧ e ≠ '\\') (hd : d ≠ '"' ∧ d ≠ '\\') :
    scanString ('\\' :: 'u' :: a :: b :: e :: d :: t) =
      (fun p => ('\\' :: 'u' :: a :: b :: e :: d :: p.1, p.2)) <$> scanString t := by
  have h0 : scanString ('\\' :: 'u' :: a :: b :: e :: d :: t) =
      (fun p => ('\\' :: 'u' :: p.1, p.2)) <$> scanString (a :: b :: e :: d :: t) := rfl
  rw [h0, scan_raw a _ ha.1 ha.2, scan_raw b _ hb.1 hb.2, scan_raw e _ he.1 he.2,
    scan_raw d _ hd.1 hd.2]
  cases scanString t <;> rfl

/-- `scanString` copies the escape sequence of any character. -/
theorem scan_escapeChar (c : Char) (t : Str) :
    scanString (escapeChar c ++ t) =
      (fun p => (escapeChar c ++ p.1, p.2)) <$> scanString t := by
  unfold escapeChar
  by_cases h1 : c = '"'
  · rw [if_pos h1]; rfl
  rw [if_neg h1]
  by_cases h2 : c = '\\'
  · rw [if_pos h2]; rfl
  rw [if_neg h2]
  by_cases h3 : c = '\x08'
  · rw [if_pos h3]; rfl
  rw [if_neg h3]
  by_cases h4 : c = '\x0c'
  · rw [if_pos h4]; rfl
  rw [if_neg h4]
  by_cases h5 : c = '\n'
  · rw [if_pos h5]; rfl
  rw [if_neg h5]
  by_cases h6 : c = '\x0d'
  · rw [if_pos h6]; rfl
  rw [if_neg h6]
  by_cases h7 : c = '\t'
  · rw [if_pos h7]; rfl
  rw [if_neg h7]
  by_cases h8 : c.toNat < 32 ∨ 126 < c.toNat
  · rw [if_pos h8]
    by_cases h9 : c.toNat < 65536
    · rw [if_pos h9]
      exact scan_u _ _ _ _ t
        (toHexDigit_ne_quote _ (Nat.mod_lt _ (by omega)))
        (toHexDigit_ne_quote _ (Nat.mod_lt _ (by omega)))
        (toHexDigit_ne_quote _ (Nat.mod_lt _ (by omega)))
        (toHexDigit_ne_quote _ (Nat.mod_lt _ (by omega)))
    · rw [if_neg h9]
      rw [show ('\\' :: 'u' :: hex4 (55296 + (c.toNat - 65536) / 1024) ++
          '\\' :: 'u' :: hex4 (56320 + (c.toNat - 65536) % 1024)) ++ t
          = '\\' :: 'u' :: hex4 (55296 + (c.toNat - 65536) / 1024) ++
            ('\\' :: 'u' :: hex4 (56320 + (c.toNat - 65536) % 1024) ++ t) by
        simp [hex4]]
      simp only [hex4, List.cons_append, List.nil_append]
      rw [scan_u _ _ _ _ _
        (toHexDigit_ne_quote _ (Nat.mod_lt _ (by omega)))
        (toHexDigit_ne_quote _ (Nat.mod_lt _ (by omega)))
        (toHexDigit_ne_quote _ (Nat.mod_lt _ (by omega)))
        (toHexDigit_ne_quote _ (Nat.mod_lt _ (by omega))),
        scan_u _ _ _ _ _
        (toHexDigit_ne_quote _ (Nat.mod_lt _ (by omega)))
        (toHexDigit_ne_quote _ (Nat.mod_lt _ (by omega)))
        (toHexDigit_ne_quote _ (Nat.mod_lt _ (by omega)))
        (toHexDigit_ne_quote _ (Nat.mod_lt _ (by omega)))]
      cases scanString t <;> rfl
  · rw [if_neg h8]
    rw [List.singleton_append, scan_raw c t h1 h2]
    rfl

/-- `scanString` returns an escaped body verbatim, stopping at its closing quote. -/
theorem scanString_escape (s : Str) : ∀ rest : Str,
    scanString (escapeString s ++ '"' :: rest) = some (escapeString s, rest) := by
  induction s with
  | nil => intro rest; rfl
  | cons c s ih =>
    intro rest
    show scanString ((escapeChar c ++ escapeString s) ++ '"' :: rest) = _
    rw [List.append_assoc, scan_escapeChar, ih rest]
    show some (escapeChar c ++ escapeString s, rest) = _
    rfl

/-- `unescape` keeps a plain character. -/
theorem unescape_raw (c : Char) (t : Str) (h : c ≠ '\\') :
    unescape (c :: t) = (c :: ·) <$> unescape t := by
  show (if c = '\\' then unescapeEsc t else (c :: ·) <$> unescape t) = _
  rw [if_neg h]

/-- `unescape` decodes a non-surrogate `\uXXXX` escape. -/
theorem unescape_u (a b e d : Char) (t : Str) (n : Nat)
    (hv : hexVal a b e d = some n)
    (hn : n < 55296 ∨ (57344 ≤ n ∧ n < 65536)) :
    unescape ('\\' :: 'u' :: a :: b :: e :: d :: t) =
      (Char.ofNat n :: ·) <$> unescape t := by
  show unescapeHex (a :: b :: e :: d :: t) = _
  unfold unescapeHex
  rw [hv]
  dsimp only
  rw [if_pos hn]

/-- `unescape` decodes a surrogate pair of `\uXXXX` escapes. -/
theorem unescape_pair (a b e d a2 b2 e2 d2 : Char) (t : Str) (n m : Nat)
    (hv1 : hexVal a b e d = some n) (hv2 : hexVal a2 b2 e2 d2 = some m)
    (hn : 55296 ≤ n ∧ n < 56320) (hm : 56320 ≤ m ∧ m < 57344) :
    unescape ('\\' :: 'u' :: a :: b :: e :: d ::
        '\\' :: 'u' :: a2 :: b2 :: e2 :: d2 :: t) =
      (Char.ofNat (65536 + (n - 55296) * 1024 + (m - 56320)) :: ·) <$> unescape t := by
  show unescapeHex (a :: b :: e :: d :: '\\' :: 'u' :: a2 :: b2 :: e2 :: d2 :: t) = _
  unfold unescapeHex
  rw [hv1]
  dsimp only
  rw [if_neg (by omega), if_pos (by omega)]
  show (match hexVal a2 b2 e2 d2 with
        | none => none
        | some m =>
          if 56320 ≤ m ∧ m < 57344 then
            (fun x => Char.ofNat (65536 + (n - 55296) * 1024 + (m - 56320)) :: x) <$>
              unescape t
          else none) = _
  rw [hv2]
  dsimp only
  rw [if_pos hm]

/-- Decoding inverts `escapeChar` on every character. -/
theorem unescape_escapeChar (c : Char) (t : Str) :
    unescape (escapeChar c ++ t) = (c :: ·) <$> unescape t := by
  unfold escapeChar
  by_cases h1 : c = '"'
  · rw [if_pos h1, h1]; rfl
  rw [if_neg h1]
  by_cases h2 : c = '\\'
  · rw [if_pos h2, h2]; rfl
  rw [if_neg h2]
  by_cases h3 : c = '\x08'
  · rw [if_pos h3, h3]; rfl
  rw [if_neg h3]
  by_cases h4 : c = '\x0c'
  · rw [if_pos h4, h4]; rfl
  rw [if_neg h4]
  by_cases h5 : c = '\n'
  · rw [if_pos h5, h5]; rfl
  rw [if_neg h5]
  by_cases h6 : c = '\x0d'
  · rw [if_pos h6, h6]; rfl
  rw [if_neg h6]
  by_cases h7 : c = '\t'
  · rw [if_pos h7, h7]; rfl
  rw [if_neg h7]
  by_cases h8 : c.toNat < 32 ∨ 126 < c.toNat
  · rw [if_pos h8]
    have hvb := char_valid_bounds c
    by_cases h9 : c.toNat < 65536
    · rw [if_pos h9]
      simp only [hex4, List.cons_append, List.nil_append]
      rw [unescape_u _ _ _ _ t c.toNat (hexVal_hex4 c.toNat h9) (by omega),
        Char.ofNat_toNat]
    · rw [if_neg h9]
      simp only [hex4, List.cons_append, List.nil_append]
      rw [unescape_pair _ _ _ _ _ _ _ _ t
        (55296 + (c.toNat - 65536) / 1024) (56320 + (c.toNat - 65536) % 1024)
        (hexVal_hex4 _ (by omega)) (hexVal_hex4 _ (by omega))
        (by omega) (by omega)]
      rw [show 65536 + (55296 + (c.toNat - 65536) / 1024 - 55296) * 1024 +
          (56320 + (c.toNat - 65536) % 1024 - 56320) = c.toNat by omega,
        Char.ofNat_toNat]
  · rw [if_neg h8, List.singleton_append, unescape_raw c t h2]

/-- Decoding inverts `escapeString` on every string. -/
theorem unescape_escapeString (s : Str) : unescape (escapeString s) = some s := by
  induction s with
  | nil => rfl
  | cons c s ih =>
    show unescape (escapeChar c ++ escapeString s) = _
    rw [unescape_escapeChar, ih]
    rfl

/-- `parseEntry` parses a rendered `"key": "value"` member back to its pair. -/
theorem parseEntry_entry (k v : Str) (rest : Str) :
    parseEntry ('"' :: (escapeString k ++ '"' :: ':' :: ' ' :: '"' ::
        (escapeString v ++ '"' :: rest))) = some ((k, v), rest) := by
  simp [parseEntry, expectQuote, expectColonSpaceQuote, scanString_escape,
    unescape_escapeString]

/-- The rendering of a nonempty flat dict, with its head member exposed. -/
theorem dumpEntries_flat_cons (k v : Str) (tl : List (Str × Str)) :
    dumpEntries (((k, v) :: tl).map (fun p => (p.1, PyVal.str p.2))) =
      '"' :: (escapeString k ++ '"' :: ':' :: ' ' :: '"' ::
        (escapeString v ++ '"' ::
          (match tl with
           | [] => []
           | _ :: _ => ',' :: ' ' ::
               dumpEntries (tl.map (fun p => (p.1, PyVal.str p.2)))))) := by
  cases tl with
  | nil => simp [dumpEntries, json_dumps]
  | cons e tl2 => simp [dumpEntries, json_dumps]

/-- With enough fuel, `parseEntries` parses rendered flat members back to the original list. -/
theorem parseEntries_dump (kvs : List (Str × Str)) : ∀ fuel : Nat, kvs ≠ [] →
    kvs.length ≤ fuel →
    parseEntries fuel
      (dumpEntries (kvs.map (fun p => (p.1, PyVal.str p.2))) ++ ['\x7d']) = some kvs := by
  induction kvs with
  | nil => intro fuel h _; exact absurd rfl h
  | cons kv tl ih =>
    intro fuel _ hlen
    obtain ⟨f, rfl⟩ : ∃ f, fuel = f + 1 := ⟨fuel - 1, by simp at hlen; omega⟩
    obtain ⟨k, v⟩ := kv
    rw [dumpEntries_flat_cons]
    cases tl with
    | nil =>
      rw [parseEntries]
      rw [show ('"' :: (escapeString k ++ '"' :: ':' :: ' ' :: '"' ::
          (escapeString v ++ '"' :: []))) ++ ['\x7d']
          = '"' :: (escapeString k ++ '"' :: ':' :: ' ' :: '"' ::
            (escapeString v ++ '"' :: ['\x7d'])) by simp]
      rw [parseEntry_entry]
      rfl
    | cons e tl2 =>
      rw [parseEntries]
      rw [show ('"' :: (escapeString k ++ '"' :: ':' :: ' ' :: '"' ::
          (escapeString v ++ '"' :: ',' :: ' ' ::
            dumpEntries ((e :: tl2).map (fun p => (p.1, PyVal.str p.2)))))) ++ ['\x7d']
          = '"' :: (escapeString k ++ '"' :: ':' :: ' ' :: '"' ::
            (escapeString v ++ '"' :: (',' :: ' ' ::
              (dumpEntries ((e :: tl2).map (fun p => (p.1, PyVal.str p.2))) ++ ['\x7d']))))
          by simp]
      rw [parseEntry_entry]
      show (fun x => (k, v) :: x) <$>
          parseEntries f (dumpEntries ((e :: tl2).map (fun p => (p.1, PyVal.str p.2))) ++ ['\x7d'])
        = some ((k, v) :: e :: tl2)
      rw [ih f (by simp) (by simp at hlen ⊢; omega)]
      rfl

/-- `json_loads_obj` on a nonempty canonical object defers to `parseEntries`. -/
theorem json_loads_obj_entryHead (Y : Str) :
    json_loads_obj ('\x7b' :: (('"' :: Y) ++ ['\x7d'])) =
      parseEntries ((('"' :: Y) ++ ['\x7d']).length) (('"' :: Y) ++ ['\x7d']) := rfl

/-- The rendered object is at least as long as its member count. -/
theorem dump_length_ge (kvs : List (Str × Str)) :
    kvs.length ≤
      (dumpEntries (kvs.map (fun p => (p.1, PyVal.str p.2))) ++ ['\x7d']).length := by
  induction kvs with
  | nil => simp
  | cons kv tl ih =>
    obtain ⟨k, v⟩ := kv
    rw [dumpEntries_flat_cons]
    cases tl with
    | nil => simp
    | cons e tl2 =>
      simp only [List.length_append, List.length_cons] at ih ⊢
      omega

end Lemmas

section Claims

/-- Claim C1 as frozen is false of the code: it says listed keys with
extra trailing characters never contribute a suffix, but the `$` anchor of
`re.match` also matches just before one newline ending the key. On the
listing `[weather_20240101_3\n]` the code resolves `weather_20240101_4`,
while the claim's strict reading (trailing characters excluded, ASCII
digits) would make `S` empty and force `weather_20240101_1`. -/
theorem claim_C1_counterexample :
    get_existing_filename ⟨[[str "weather_20240101_3\n"]], .ok ()⟩
        (str "weather") (str "20240101") = str "weather_20240101_4" ∧
    str "weather_20240101" ++ '_' ::
        (Nat.repr (1 + strict_maxSuffix (str "weather_20240101")
          [str "weather_20240101_3\n"])).data = str "weather_20240101_1" ∧
    (str "weather_20240101_4" : Str) ≠ str "weather_20240101_1" :=
  ⟨by decide, by decide, by decide⟩

/-- Claim C1 (amended): for every bucket listing, base key and current
date, the key resolver returns
`"\x7bbaseKey\x7d_\x7btoday\x7d_\x7b1 + max(S, default 0)\x7d"`, where `S` holds the
integer suffixes of listed keys matching `^datedBase(?:_(\d+))?$` under
Python `re` semantics: `\d` matches any Unicode decimal digit (whose
decimal values `int()` combines) and the `$` anchor also tolerates exactly
one key-final newline; keys with any other trailing characters are
excluded, and matching keys without a suffix contribute nothing. An empty
listing yields suffix 1; the listing `\x7bweather_20240101_1,
weather_20240101_3, weather_20240101_3_extra\x7d` yields
`"weather_20240101_4"`; and so do the single-key listings
`weather_20240101_3\n` (trailing newline tolerated) and
`weather_20240101_٣` (Arabic-Indic digit three). -/
theorem claim_C1 :
    (∀ (s3 : S3Client) (file_name today_str : Str),
      get_existing_filename s3 file_name today_str =
        (file_name ++ '_' :: today_str) ++ '_' ::
          (Nat.repr (1 + spec_maxSuffix (file_name ++ '_' :: today_str)
            (list_objects_v2 s3))).data) ∧
    get_existing_filename ⟨[], .ok ()⟩ (str "weather") (str "20240101") =
      str "weather_20240101_1" ∧
    get_existing_filename ⟨[[str "weather_20240101_1", str "weather_20240101_3",
        str "weather_20240101_3_extra"]], .ok ()⟩ (str "weather") (str "20240101") =
      str "weather_20240101_4" ∧
    get_existing_filename ⟨[[str "weather_20240101_3\n"]], .ok ()⟩
        (str "weather") (str "20240101") = str "weather_20240101_4" ∧
    get_existing_filename ⟨[[str "weather_20240101_٣"]], .ok ()⟩
        (str "weather") (str "20240101") = str "weather_20240101_4" := by
  refine ⟨?_, by decide, by decide, by decide, by decide⟩
  intro s3 file_name today_str
  have hfun : (fun key => match re_match (file_name ++ '_' :: today_str) key with
      | some (some ds) => some (int_of_digits ds)
      | _ => none) = spec_matchSuffix (file_name ++ '_' :: today_str) :=
    funext (keyFilter_eq _)
  simp only [get_existing_filename, spec_maxSuffix]
  rw [hfun, Nat.add_comm _ 1]

/-- Claim C2: when every HTTP attempt fails with a request-layer error,
`get_weather_data` performs exactly `max_retries` GET attempts and no more,
logging one classified reason per failed attempt. -/
theorem claim_C2 (oracle : Nat → AttemptResult) (max_retries : Nat)
    (h : ∀ i, i < max_retries → (oracle i).isFail = true) :
    (get_weather_data oracle max_retries).calls = max_retries ∧
    (get_weather_data oracle max_retries).logs =
      (List.range max_retries).filterMap (fun i => classifyFail (oracle i)) ∧
    (get_weather_data oracle max_retries).logs.length = max_retries := by
  rw [get_weather_data_allFail oracle max_retries h]
  refine ⟨rfl, rfl, ?_⟩
  have hlen := filterMap_length_all_some (fun i => classifyFail (oracle i))
    (List.range max_retries) (fun i hi => by
      have hf := h i (List.mem_range.mp hi)
      cases hor : oracle i <;> rw [hor] at hf <;> simp [AttemptResult.isFail] at hf <;>
        simp [classifyFail, hor])
  simp only [hlen, List.length_range]

/-- Concrete instance of C2: three always-failing attempts give three calls and three log lines. -/
theorem claim_C2_witness :
    (∀ i, i < 3 → ((fun _ => AttemptResult.httpError) i).isFail = true) ∧
    (get_weather_data (fun _ => AttemptResult.httpError) 3).calls = 3 ∧
    (get_weather_data (fun _ => AttemptResult.httpError) 3).logs.length = 3 := by
  refine ⟨fun i _ => rfl, ?_, ?_⟩
  · exact (claim_C2 (fun _ => AttemptResult.httpError) 3 (fun i _ => rfl)).1
  · exact (claim_C2 (fun _ => AttemptResult.httpError) 3 (fun i _ => rfl)).2.2

/-- Claim C3: on a run whose attempt `k` succeeds and parses, the fetch
returns the full decoded nested mapping from inside the retry loop after
`k + 1` calls, the post-loop category-extraction block is never executed,
and the payload `lambda_handler` encodes and uploads is this raw nested
mapping rather than a seven-field snapshot. -/
theorem claim_C3 (oracle : Nat → AttemptResult) (k : Nat) (d : PyVal)
    (hk : k < 10)
    (hfail : ∀ i, i < k → (oracle i).isFail = true)
    (hok : oracle k = .ok d) :
    (get_weather_data oracle 10).outcome = .ok d ∧
    (get_weather_data oracle 10).calls = k + 1 ∧
    (get_weather_data oracle 10).extractionExecuted = false ∧
    ∀ (s3 : S3Client) (cfg : AwsConfig) (today_str : Str),
      uploadedBodies (lambda_handler oracle s3 cfg today_str) =
        [process_weather_data d] := by
  have hfull : get_weather_data oracle 10 =
      ⟨k + 1, (List.range k).filterMap (fun i => classifyFail (oracle i)), .ok d, false⟩ := by
    rw [get_weather_data_skip oracle 10 k (Nat.le_of_lt hk) hfail]
    obtain ⟨m, hm⟩ : ∃ m, 10 - k = m + 1 := ⟨10 - k - 1, by omega⟩
    rw [hm]
    simp [fetchLoop, hok]
  refine ⟨by rw [hfull], by rw [hfull], by rw [hfull], ?_⟩
  intro s3 cfg today_str
  unfold lambda_handler
  rw [hfull]
  cases hput : s3.putResult <;>
    simp [upload_file_to_s3, uploadedBodies, hput]

/-- Concrete instance of C3: an immediately successful fetch returns the raw dict and uploads its encoding. -/
theorem claim_C3_witness :
    (0 < 10 ∧ (fun _ => AttemptResult.ok (.dict [(str "a", .str (str "b"))])) 0
        = .ok (.dict [(str "a", .str (str "b"))])) ∧
    (get_weather_data (fun _ => AttemptResult.ok (.dict [(str "a", .str (str "b"))])) 10).outcome
        = .ok (.dict [(str "a", .str (str "b"))]) ∧
    (get_weather_data (fun _ => AttemptResult.ok (.dict [(str "a", .str (str "b"))])) 10).extractionExecuted
        = false ∧
    uploadedBodies (lambda_handler (fun _ => AttemptResult.ok (.dict [(str "a", .str (str "b"))]))
        ⟨[], .ok ()⟩ ⟨str "bucket", str "pfx/", str "key"⟩ (str "20240101"))
      = [process_weather_data (.dict [(str "a", .str (str "b"))])] := by
  have h := claim_C3 (fun _ => AttemptResult.ok (.dict [(str "a", .str (str "b"))])) 0
    (.dict [(str "a", .str (str "b"))]) (by omega) (fun i hi => by omega) rfl
  exact ⟨⟨by omega, rfl⟩, h.1, h.2.2.1,
    h.2.2.2 ⟨[], .ok ()⟩ ⟨str "bucket", str "pfx/", str "key"⟩ (str "20240101")⟩

/-- Claim C4: for an item list with one entry per recognized category plus
one unrecognized entry, the snapshot contains exactly the seven recognized
fields `pty reh sky tmn tmx vec wsd` with their forecast values and omits
the unrecognized entry; a repeated recognized category keeps the last value
(last write wins). -/
theorem claim_C4 :
    (∀ v1 v2 v3 v4 v5 v6 v7 v8 c : Str,
      c ∉ [str "PTY", str "REH", str "SKY", str "TMN", str "TMX",
        str "VEC", str "WSD"] →
      extract_weather (mkResponse [mkItem (str "PTY") v1, mkItem (str "REH") v2,
          mkItem (str "SKY") v3, mkItem (str "TMN") v4, mkItem (str "TMX") v5,
          mkItem (str "VEC") v6, mkItem (str "WSD") v7, mkItem c v8]) =
        .ok (.dict [(str "pty", .str v1), (str "reh", .str v2), (str "sky", .str v3),
          (str "tmn", .str v4), (str "tmx", .str v5), (str "vec", .str v6),
          (str "wsd", .str v7)])) ∧
    (∀ (items : List PyVal) (d0 : PyVal) (c v fld : Str),
      recognizedField c = some fld →
      extract_weather (mkResponse items) = .ok d0 →
      extract_weather (mkResponse (items ++ [mkItem c v])) =
        .ok (d0.setItem fld (.str v))) :=
  ⟨extract_sevenPlusUnrecognized, extract_lastWriteWins⟩

/-- Concrete instance of C4: the spec example items and a repeated SKY item. -/
theorem claim_C4_witness :
    ((str "FOO") ∉ [str "PTY", str "REH", str "SKY", str "TMN", str "TMX",
        str "VEC", str "WSD"] ∧
      recognizedField (str "SKY") = some (str "sky") ∧
      extract_weather (mkResponse [mkItem (str "SKY") (str "1")]) =
        .ok (.dict [(str "sky", .str (str "1"))])) ∧
    extract_weather (mkResponse [mkItem (str "PTY") (str "0"),
        mkItem (str "REH") (str "55"), mkItem (str "SKY") (str "1"),
        mkItem (str "TMN") (str "10"), mkItem (str "TMX") (str "20"),
        mkItem (str "VEC") (str "270"), mkItem (str "WSD") (str "3"),
        mkItem (str "FOO") (str "99")]) =
      .ok (.dict [(str "pty", .str (str "0")), (str "reh", .str (str "55")),
        (str "sky", .str (str "1")), (str "tmn", .str (str "10")),
        (str "tmx", .str (str "20")), (str "vec", .str (str "270")),
        (str "wsd", .str (str "3"))]) ∧
    extract_weather (mkResponse ([mkItem (str "SKY") (str "1")] ++
        [mkItem (str "SKY") (str "4")])) =
      .ok ((PyVal.dict [(str "sky", .str (str "1"))]).setItem (str "sky")
        (.str (str "4"))) := by
  refine ⟨⟨by decide, rfl, rfl⟩, ?_, ?_⟩
  · exact claim_C4.1 (str "0") (str "55") (str "1") (str "10") (str "20")
      (str "270") (str "3") (str "99") (str "FOO") (by decide)
  · exact claim_C4.2 [mkItem (str "SKY") (str "1")]
      (.dict [(str "sky", .str (str "1"))]) (str "SKY") (str "4") (str "sky") rfl rfl

/-- Claim C5: when all `max_retries` attempts fail, `get_weather_data`
produces no successful result: it never returns a weather mapping, and
execution reaches the `if dict_data:` reference to the never-assigned
decode result, raising `UnboundLocalError` (the crash path the orchestrator
must treat as a hard failure). -/
theorem claim_C5 (oracle : Nat → AttemptResult) (max_retries : Nat)
    (h : ∀ i, i < max_retries → (oracle i).isFail = true) :
    (get_weather_data oracle max_retries).outcome =
      .error (.unboundLocal (str "dict_data")) ∧
    ∀ d : PyVal, (get_weather_data oracle max_retries).outcome ≠ .ok d := by
  rw [get_weather_data_allFail oracle max_retries h]
  exact ⟨rfl, fun d h => by simp at h⟩

/-- Concrete instance of C5: two failing attempts end in the unbound-local crash path. -/
theorem claim_C5_witness :
    (∀ i, i < 2 → ((fun _ => AttemptResult.timeoutError) i).isFail = true) ∧
    (get_weather_data (fun _ => AttemptResult.timeoutError) 2).outcome =
      .error (.unboundLocal (str "dict_data")) := by
  exact ⟨fun i _ => rfl,
    (claim_C5 (fun _ => AttemptResult.timeoutError) 2 (fun i _ => rfl)).1⟩

/-- Claim C6: if the first `k < max_retries` attempts fail and attempt
`k + 1` succeeds with a parseable body, `get_weather_data` returns the
decode having made exactly `k + 1` calls; a decode (parse) error on the
successful response is not caught and propagates as fatal, also after
exactly `k + 1` calls. -/
theorem claim_C6 (oracle : Nat → AttemptResult) (max_retries k : Nat)
    (hk : k < max_retries)
    (hfail : ∀ i, i < k → (oracle i).isFail = true) :
    (∀ d : PyVal, oracle k = .ok d →
      (get_weather_data oracle max_retries).outcome = .ok d ∧
      (get_weather_data oracle max_retries).calls = k + 1) ∧
    (oracle k = .badBody →
      (get_weather_data oracle max_retries).outcome = .error .expatError ∧
      (get_weather_data oracle max_retries).calls = k + 1) := by
  rw [get_weather_data_skip oracle max_retries k (Nat.le_of_lt hk) hfail]
  obtain ⟨m, hm⟩ : ∃ m, max_retries - k = m + 1 := ⟨max_retries - k - 1, by omega⟩
  rw [hm]
  constructor
  · intro d hok
    rw [show fetchLoop oracle (m + 1) k ((List.range k).filterMap (fun i => classifyFail (oracle i)))
        = ⟨k + 1, (List.range k).filterMap (fun i => classifyFail (oracle i)), .ok d, false⟩ by
      simp [fetchLoop, hok]]
    exact ⟨rfl, rfl⟩
  · intro hbad
    rw [show fetchLoop oracle (m + 1) k ((List.range k).filterMap (fun i => classifyFail (oracle i)))
        = ⟨k + 1, (List.range k).filterMap (fun i => classifyFail (oracle i)), .error .expatError, false⟩ by
      simp [fetchLoop, hbad]]
    exact ⟨rfl, rfl⟩

/-- Concrete instance of C6: two failures then success give three calls and the decode. -/
theorem claim_C6_witness :
    (2 < 5 ∧ (∀ i, i < 2 → ((fun i => if i < 2 then AttemptResult.connectionError
        else AttemptResult.ok (.dict [])) i).isFail = true)) ∧
    (get_weather_data (fun i => if i < 2 then AttemptResult.connectionError
        else AttemptResult.ok (.dict [])) 5).outcome = .ok (.dict []) ∧
    (get_weather_data (fun i => if i < 2 then AttemptResult.connectionError
        else AttemptResult.ok (.dict [])) 5).calls = 3 := by
  refine ⟨⟨by omega, fun i hi => by simp [AttemptResult.isFail, hi]⟩, ?_⟩
  exact (claim_C6 (fun i => if i < 2 then AttemptResult.connectionError
      else AttemptResult.ok (.dict [])) 5 2 (by omega)
      (fun i hi => by simp [AttemptResult.isFail, hi])).1 (.dict []) (by simp)

/-- Claim C7: if the storage client's put raises, `upload_file_to_s3` logs
the error and returns `false` after a single put attempt, and
`lambda_handler` then reports status 400; if the put succeeds it returns
`true` and the handler reports status 200. -/
theorem claim_C7 (s3 : S3Client) (bucket pfx file_name encoded_data today_str : Str)
    (oracle : Nat → AttemptResult) (cfg : AwsConfig) (d : PyVal) (e : Str) :
    (s3.putResult = .error e →
      upload_file_to_s3 s3 bucket pfx file_name encoded_data today_str =
        ⟨false, [⟨bucket, get_existing_filename s3 (pfx ++ file_name) today_str,
          encoded_data⟩], [e]⟩) ∧
    (s3.putResult = .ok () →
      upload_file_to_s3 s3 bucket pfx file_name encoded_data today_str =
        ⟨true, [⟨bucket, get_existing_filename s3 (pfx ++ file_name) today_str,
          encoded_data⟩], []⟩) ∧
    ((get_weather_data oracle 10).outcome = .ok d → s3.putResult = .error e →
      statusOf (lambda_handler oracle s3 cfg today_str) = some 400) ∧
    ((get_weather_data oracle 10).outcome = .ok d → s3.putResult = .ok () →
      statusOf (lambda_handler oracle s3 cfg today_str) = some 200) := by
  refine ⟨?_, ?_, ?_, ?_⟩
  · intro hput
    unfold upload_file_to_s3
    rw [hput]
  · intro hput
    unfold upload_file_to_s3
    rw [hput]
  · intro hout hput
    unfold lambda_handler
    rw [hout]
    simp [upload_file_to_s3, hput, statusOf]
  · intro hout hput
    unfold lambda_handler
    rw [hout]
    simp [upload_file_to_s3, hput, statusOf]

/-- Concrete instance of C7: a raising put stub gives false/400; a succeeding one gives true/200. -/
theorem claim_C7_witness :
    ((⟨[], .error (str "boom")⟩ : S3Client).putResult = .error (str "boom") ∧
     (⟨[], .ok ()⟩ : S3Client).putResult = .ok () ∧
     (get_weather_data (fun _ => .ok (.dict [])) 10).outcome = .ok (.dict [])) ∧
    (upload_file_to_s3 ⟨[], .error (str "boom")⟩ (str "b") (str "p/") (str "f")
        (str "xx") (str "20240101")).ok = false ∧
    statusOf (lambda_handler (fun _ => .ok (.dict [])) ⟨[], .error (str "boom")⟩
        ⟨str "b", str "p/", str "f"⟩ (str "20240101")) = some 400 ∧
    (upload_file_to_s3 ⟨[], .ok ()⟩ (str "b") (str "p/") (str "f")
        (str "xx") (str "20240101")).ok = true ∧
    statusOf (lambda_handler (fun _ => .ok (.dict [])) ⟨[], .ok ()⟩
        ⟨str "b", str "p/", str "f"⟩ (str "20240101")) = some 200 := by
  have herr := claim_C7 ⟨[], .error (str "boom")⟩ (str "b") (str "p/") (str "f")
    (str "xx") (str "20240101") (fun _ => .ok (.dict []))
    ⟨str "b", str "p/", str "f"⟩ (.dict []) (str "boom")
  have hok := claim_C7 ⟨[], .ok ()⟩ (str "b") (str "p/") (str "f")
    (str "xx") (str "20240101") (fun _ => .ok (.dict []))
    ⟨str "b", str "p/", str "f"⟩ (.dict []) (str "boom")
  refine ⟨⟨rfl, rfl, rfl⟩, ?_, herr.2.2.1 rfl rfl, ?_, hok.2.2.2 rfl rfl⟩
  · rw [herr.1 rfl]
  · rw [hok.2.1 rfl]

/-- Claim C8 (code divergence): on a decoded response missing the expected
path `response.body.items.item`, the extraction block propagates the raw
`KeyError` of the failed subscript uninterpreted; no MalformedResponse
classification exists in the code. -/
theorem claim_C8 :
    extract_weather (PyVal.dict []) = .error (.keyError (str "response")) ∧
    extract_weather (PyVal.dict [(str "response",
        .dict [(str "body", .dict [])])]) = .error (.keyError (str "items")) :=
  ⟨rfl, rfl⟩

/-- Claim C9: the encoder is a pure total function, and JSON-decoding its
byte output reproduces the original flat mapping of string fields to string
values exactly. -/
theorem claim_C9 (kvs : List (Str × Str)) :
    json_loads_obj (process_weather_data
      (PyVal.dict (kvs.map (fun p => (p.1, PyVal.str p.2))))) = some kvs := by
  cases kvs with
  | nil => rfl
  | cons kv tl =>
    obtain ⟨k, v⟩ := kv
    have hD := dumpEntries_flat_cons k v tl
    have hlen := dump_length_ge ((k, v) :: tl)
    unfold process_weather_data
    rw [show json_dumps (PyVal.dict (((k, v) :: tl).map (fun p => (p.1, PyVal.str p.2))))
        = '\x7b' :: (dumpEntries (((k, v) :: tl).map (fun p => (p.1, PyVal.str p.2))) ++ ['\x7d'])
        from rfl]
    rw [hD, json_loads_obj_entryHead, ← hD]
    exact parseEntries_dump ((k, v) :: tl) _ (by simp) (by rw [hD] at hlen ⊢; exact hlen)

/-- Claim C10 (code divergence): the key resolver reads only the first
listing page — on a truncated (paginated) listing whose pages are
`[[weather_20240101_1], [weather_20240101_3]]` it returns
`weather_20240101_2`, whereas accounting for all listed keys, as the claim
requires, yields `weather_20240101_4`. -/
theorem claim_C10 :
    get_existing_filename
        ⟨[[str "weather_20240101_1"], [str "weather_20240101_3"]], .ok ()⟩
        (str "weather") (str "20240101") = str "weather_20240101_2" ∧
    str "weather_20240101" ++ '_' ::
        (Nat.repr (1 + spec_maxSuffix (str "weather_20240101")
          ([[str "weather_20240101_1"], [str "weather_20240101_3"]] :
            List (List Str)).flatten)).data
      = str "weather_20240101_4" := ⟨by decide, by decide⟩

end Claims
